import Mathlib

/-!
# Verification of the Connect Four game engine

Shallow embedding of the game engine found in `c4board.py` / `main.py`
(the two files carry identical copies of the `Board` class) and
`c4token.py`.  Columns are lists of cells, index 0 = bottom row;
the board is a list of `BOARD_WIDTH` columns.  Colors are the integers
used by the source (`Color.RED = 1`, `Color.YELLOW = 2`); the winner
field stores `-1` for a tie.  The scipy call
`convolve2d(mask, kernel, mode="valid")` is embedded as an explicit
2-D discrete convolution (the kernel is flipped in both axes, exactly
as `scipy.signal.convolve2d` does).
-/

namespace ConnectFour

/-- Constant `Color.RED` from c4token.py. -/
def RED : Int := 1

/-- Constant `Color.YELLOW` from c4token.py. -/
def YELLOW : Int := 2

/-- The `BOARD_WIDTH` constant. -/
def BOARD_WIDTH : Nat := 7

/-- The `BOARD_HEIGHT` constant. -/
def BOARD_HEIGHT : Nat := 6

/-- A board cell: `None` or a token carrying its color. -/
abbrev Cell := Option Int

/-- Function `make_cols`: `[[None for _ in range(BOARD_HEIGHT)] for _ in range(BOARD_WIDTH)]`. -/
def make_cols : List (List Cell) :=
  List.replicate BOARD_WIDTH (List.replicate BOARD_HEIGHT none)

/-- Definition `horizontal_kernel = np.array([[1, 1, 1, 1]])`. -/
def horizontal_kernel : List (List Nat) := [[1, 1, 1, 1]]

/-- Definition `vertical_kernel = np.transpose(horizontal_kernel)`. -/
def vertical_kernel : List (List Nat) := [[1], [1], [1], [1]]

/-- Definition `diag1_kernel = np.eye(4, dtype=np.uint8)`. -/
def diag1_kernel : List (List Nat) :=
  [[1, 0, 0, 0], [0, 1, 0, 0], [0, 0, 1, 0], [0, 0, 0, 1]]

/-- Definition `diag2_kernel = np.fliplr(diag1_kernel)`. -/
def diag2_kernel : List (List Nat) :=
  [[0, 0, 0, 1], [0, 0, 1, 0], [0, 1, 0, 0], [1, 0, 0, 0]]

/-- Embedding of `scipy.signal.convolve2d(m, ker, mode="valid")`: 2-D discrete
convolution (kernel flipped along both axes), keeping only the entries
whose computation involves no padding.  Output dimensions are
`(mh - kh + 1) × (mw - kw + 1)`. -/
def convolve2d (m ker : List (List Nat)) : List (List Nat) :=
  let kh := ker.length
  let kw := (ker.getD 0 []).length
  let mh := m.length
  let mw := (m.getD 0 []).length
  (List.range (mh - kh + 1)).map fun i =>
    (List.range (mw - kw + 1)).map fun j =>
      ((List.range kh).map fun a =>
        ((List.range kw).map fun b =>
          (ker.getD a []).getD b 0 *
            (m.getD (i + (kh - 1 - a)) []).getD (j + (kw - 1 - b)) 0).sum).sum

/-- The check `(convolve2d(mask, kernel, mode="valid") == 4).any()`. -/
def kernel_hit (m ker : List (List Nat)) : Bool :=
  (convolve2d m ker).any fun row => row.any fun x => x == 4

/-- Method `Board.mask` (`_mask_board` in main.py):
`[[1 if (cell and cell.color == color) else 0 for cell in col] for col in self.cols]`. -/
def mask (cols : List (List Cell)) (color : Int) : List (List Nat) :=
  cols.map fun col => col.map fun cell =>
    match cell with
    | some c => if c == color then 1 else 0
    | none => 0

/-- Method `Board._is_full`:
`reduce(lambda a, col: col[BOARD_HEIGHT - 1] is not None and a, self.cols, True)`. -/
def is_full (cols : List (List Cell)) : Bool :=
  cols.foldl (fun a col => (col.getD (BOARD_HEIGHT - 1) none).isSome && a) true

/-- The inner function `find(last, location)` of `Board._find_column_top`:
`location[0] if location[1] is None else last`. -/
def find_step (last : Nat) (location : Nat × Cell) : Nat :=
  match location.2 with
  | none => location.1
  | some _ => last

/-- Method `Board._find_column_top`: folds `find` over `reversed(list(enumerate(col)))`
starting from `9999`, replacing the accumulator by the index whenever the
cell is `None`; ends up with the lowest empty index, or `9999` if none. -/
def find_column_top (col : List Cell) : Nat :=
  (col.enum.reverse).foldl find_step 9999

/-- Method `Board._check_win`: the kernel loop unrolled over the fixed list
`detection_kernels = [horizontal_kernel, vertical_kernel, diag1_kernel, diag2_kernel]`,
checking red before yellow for each kernel, then falling back to the
full-board tie check. -/
def check_win (cols : List (List Cell)) : Option Int :=
  let red_mask := mask cols RED
  let yellow_mask := mask cols YELLOW
  if kernel_hit red_mask horizontal_kernel then some RED
  else if kernel_hit yellow_mask horizontal_kernel then some YELLOW
  else if kernel_hit red_mask vertical_kernel then some RED
  else if kernel_hit yellow_mask vertical_kernel then some YELLOW
  else if kernel_hit red_mask diag1_kernel then some RED
  else if kernel_hit yellow_mask diag1_kernel then some YELLOW
  else if kernel_hit red_mask diag2_kernel then some RED
  else if kernel_hit yellow_mask diag2_kernel then some YELLOW
  else if is_full cols then some (-1)
  else none

/-- The mutable state of the `Board` class (the screen handle is not part
of the game state). -/
structure Board where
  cols : List (List Cell)
  selected_column : Nat
  current_turn : Int
  game_over : Bool
  winner : Option Int
  lock : Bool
  status_message : Option String
deriving DecidableEq, Repr

/-- Constructor `Board.__init__`: fresh columns, unlocked, not over, no status, no
winner; the starting turn is `randint(1, 2)`, passed here as a parameter.
`selected_column` keeps its class-level default `BOARD_WIDTH // 2`. -/
def init_board (turn : Int) : Board :=
  { cols := make_cols
    selected_column := BOARD_WIDTH / 2
    current_turn := turn
    game_over := false
    winner := none
    lock := false
    status_message := none }

/-- Method `Board.drop_token` (drawing and animation omitted: they only touch the
screen).  Fails when locked or when the top cell of the selected column is
occupied; otherwise writes the current player's token at the row returned
by `find_column_top`, then branches on `check_win`. -/
def drop_token (b : Board) : Board × Bool :=
  if b.lock then (b, false)
  else if ((b.cols.getD b.selected_column []).getD (BOARD_HEIGHT - 1) none).isSome then
    (b, false)
  else
    let col := b.cols.getD b.selected_column []
    let destination_row := find_column_top col
    let cols' := b.cols.set b.selected_column (col.set destination_row (some b.current_turn))
    match check_win cols' with
    | some w =>
        ({ b with cols := cols', lock := true, game_over := true, winner := some w }, true)
    | none =>
        ({ b with
            cols := cols'
            current_turn := if b.current_turn = RED then YELLOW else RED
            lock := false }, true)

/-- Method `Board.move_left`. -/
def move_left (b : Board) : Board × Bool :=
  if b.lock then (b, false)
  else if b.selected_column ≤ 0 then (b, false)
  else ({ b with selected_column := b.selected_column - 1 }, true)

/-- Method `Board.move_right`. -/
def move_right (b : Board) : Board × Bool :=
  if b.lock then (b, false)
  else if b.selected_column ≥ BOARD_WIDTH - 1 then (b, false)
  else ({ b with selected_column := b.selected_column + 1 }, true)

/-- Method `Board.reset`: fresh columns, cleared lock/over/status; the next turn
is the previous winner unless there was none or it was a tie (`-1`), in
which case `randint(1, 2)` — passed here as the parameter `rand` — is
used.  `selected_column` is not touched. -/
def reset (b : Board) (rand : Int) : Board :=
  { b with
      cols := make_cols
      lock := false
      game_over := false
      status_message := none
      current_turn :=
        match b.winner with
        | some w => if w ≠ -1 then w else rand
        | none => rand
      winner := none }

/-- Cell of the board at column `i`, row `j` (row 0 = bottom). -/
def cell_at (cols : List (List Cell)) (i j : Nat) : Cell :=
  (cols.getD i []).getD j none

/-- Well-formedness of the grid built by `make_cols` and preserved by all
operations: `BOARD_WIDTH` columns of `BOARD_HEIGHT` cells each. -/
def board_shape (cols : List (List Cell)) : Prop :=
  cols.length = BOARD_WIDTH ∧ ∀ col ∈ cols, col.length = BOARD_HEIGHT

/-- Row `j` of a column holds a token. -/
def occupied (col : List Cell) (j : Nat) : Prop :=
  ∃ x, col[j]? = some (some x)

/-- The gravity invariant for one column: every cell below an occupied
cell is occupied. -/
def col_gravity (col : List Cell) : Prop :=
  ∀ i j, j ≤ i → occupied col i → occupied col j

/-- The gravity invariant for the whole grid. -/
def gravity (cols : List (List Cell)) : Prop :=
  ∀ col ∈ cols, col_gravity col

theorem enum_eq_enumFrom (col : List Cell) : col.enum = col.enumFrom 0 := rfl

theorem find_fold_all_occupied (col : List Cell) (n init : Nat)
    (h : ∀ j < col.length, col[j]? ≠ some none) :
    ((col.enumFrom n).reverse).foldl find_step init = init := by
  induction col generalizing n init with
  | nil => simp
  | cons a rest ih =>
      have ha : a ≠ none := by
        have h0 := h 0 (by simp)
        simpa using h0
      rw [List.enumFrom_cons, List.reverse_cons, List.foldl_append]
      rcases a with _ | x
      · exact absurd rfl ha
      · simp only [List.foldl_cons, List.foldl_nil, find_step]
        exact ih n.succ init fun j hj => by
          simpa using h (j + 1) (by simpa using hj)

theorem find_fold_least (col : List Cell) (j : Nat) (hj : col[j]? = some none)
    (hbelow : ∀ k < j, col[k]? ≠ some none) (n init : Nat) :
    ((col.enumFrom n).reverse).foldl find_step init = n + j := by
  induction col generalizing j n init with
  | nil => simp at hj
  | cons a rest ih =>
      rw [List.enumFrom_cons, List.reverse_cons, List.foldl_append]
      cases j with
      | zero =>
          have ha : a = none := by simpa using hj
          subst ha
          simp [find_step]
      | succ j' =>
          have ha : a ≠ none := by simpa using hbelow 0 j'.succ_pos
          rcases a with _ | x
          · exact absurd rfl ha
          · simp only [List.foldl_cons, List.foldl_nil, find_step]
            have hrec := ih j' (by simpa using hj)
              (fun k hk => by simpa using hbelow (k + 1) (by omega)) (n + 1) init
            omega

/-- Characterization: `_find_column_top` returns the least empty index of the column. -/
theorem find_column_top_eq_least (col : List Cell) (j : Nat)
    (hj : col[j]? = some none) (hbelow : ∀ k < j, col[k]? ≠ some none) :
    find_column_top col = j := by
  have h := find_fold_least col j hj hbelow 0 9999
  rw [find_column_top, enum_eq_enumFrom, h]
  omega

/-- On a column with no empty cell, `_find_column_top` keeps the initial
accumulator `9999`. -/
theorem find_column_top_of_full (col : List Cell)
    (h : ∀ j < col.length, col[j]? ≠ some none) :
    find_column_top col = 9999 := by
  have hfold := find_fold_all_occupied col 0 9999 h
  rw [find_column_top, enum_eq_enumFrom, hfold]

theorem exists_least_none (col : List Cell) (k : Nat) (hk : col[k]? = some none) :
    ∃ j, col[j]? = some none ∧ ∀ i : Nat, i < j → col[i]? ≠ some none := by
  have hex : ∃ j, col[j]? = some none := ⟨k, hk⟩
  exact ⟨Nat.find hex, Nat.find_spec hex, fun i hi => Nat.find_min hex hi⟩

theorem col_gravity_set (col : List Cell) (j : Nat) (t : Int)
    (hg : col_gravity col)
    (hempty : col[j]? = some none)
    (hbelow : ∀ i < j, col[i]? ≠ some none) :
    col_gravity (col.set j (some t)) := by
  have hjlen : j < col.length := (List.getElem?_eq_some.mp hempty).1
  intro i' j' hle hocc
  rcases hocc with ⟨x, hx⟩
  by_cases hj' : j' = j
  · subst hj'
    refine ⟨t, ?_⟩
    rw [List.getElem?_set, if_pos rfl, if_pos hjlen]
  · rcases Nat.lt_or_ge j' j with hlt | hge
    · -- below the written row: occupied already, untouched by `set`
      have hlen' : j' < col.length := by omega
      have hne : col[j']? ≠ some none := hbelow j' hlt
      rcases h' : col[j']? with _ | c
      · have := List.getElem?_eq_none_iff.mp h'
        omega
      · rcases c with _ | y
        · exact absurd h' hne
        · refine ⟨y, ?_⟩
          rw [List.getElem?_set, if_neg (by omega)]
          exact h'
    · -- at or above the written row but distinct from it
      have hne : j ≠ i' := by omega
      have hxcol : col[i']? = some (some x) := by
        rw [List.getElem?_set, if_neg (by omega)] at hx
        exact hx
      have hocc' : occupied col j' := hg i' j' hle ⟨x, hxcol⟩
      rcases hocc' with ⟨y, hy⟩
      refine ⟨y, ?_⟩
      rw [List.getElem?_set, if_neg (by omega)]
      exact hy

/-! ## Reachable states and the gravity invariant -/

/-- Game states reachable from a freshly constructed board by the four
input-driven operations.  The starting turn and the turn chosen by a
reset come from `randint(1, 2)`, hence the `RED`/`YELLOW` side
conditions. -/
inductive Reachable : Board → Prop
  | start (turn : Int) : turn = RED ∨ turn = YELLOW → Reachable (init_board turn)
  | step_drop (b : Board) : Reachable b → Reachable (drop_token b).1
  | step_left (b : Board) : Reachable b → Reachable (move_left b).1
  | step_right (b : Board) : Reachable b → Reachable (move_right b).1
  | step_reset (b : Board) (rand : Int) :
      Reachable b → rand = RED ∨ rand = YELLOW → Reachable (reset b rand)

theorem shape_make_cols : board_shape make_cols := by
  constructor
  · rfl
  · intro col hcol
    rcases List.mem_replicate.mp hcol with ⟨-, rfl⟩
    rfl

theorem gravity_make_cols : gravity make_cols := by
  intro col hcol i j hle hocc
  rcases hocc with ⟨x, hx⟩
  rw [make_cols] at hcol
  rcases List.mem_replicate.mp hcol with ⟨-, rfl⟩
  rw [List.getElem?_replicate] at hx
  rcases Nat.lt_or_ge i BOARD_HEIGHT with hi | hi
  · rw [if_pos hi] at hx
    simp at hx
  · rw [if_neg (by omega)] at hx
    simp at hx

theorem move_left_cols (b : Board) : (move_left b).1.cols = b.cols := by
  rw [move_left]
  split_ifs <;> rfl

theorem move_right_cols (b : Board) : (move_right b).1.cols = b.cols := by
  rw [move_right]
  split_ifs <;> rfl

/-- On the success path, `drop_token` writes the current player's token
into the selected column at the row returned by `_find_column_top`,
whatever `check_win` then says. -/
theorem drop_token_cols (b : Board) (hl : b.lock = false)
    (htop : ((b.cols.getD b.selected_column []).getD (BOARD_HEIGHT - 1) none).isSome = false) :
    (drop_token b).1.cols =
      b.cols.set b.selected_column
        ((b.cols.getD b.selected_column []).set
          (find_column_top (b.cols.getD b.selected_column [])) (some b.current_turn)) := by
  rw [drop_token, hl]
  simp only [Bool.false_eq_true, if_false, htop, if_false]
  rcases h : check_win
      (b.cols.set b.selected_column
        ((b.cols.getD b.selected_column []).set
          (find_column_top (b.cols.getD b.selected_column [])) (some b.current_turn))) with
    _ | w <;> simp [h]

theorem shape_gravity_drop (b : Board) (hs : board_shape b.cols) (hg : gravity b.cols) :
    board_shape (drop_token b).1.cols ∧ gravity (drop_token b).1.cols := by
  by_cases hl : b.lock
  · simp [drop_token, hl]
    exact ⟨hs, hg⟩
  by_cases htop : ((b.cols.getD b.selected_column []).getD (BOARD_HEIGHT - 1) none).isSome
  · simp only [drop_token, hl, Bool.false_eq_true, if_false, htop, if_true]
    exact ⟨hs, hg⟩
  rw [drop_token_cols b (by simpa using hl) (by simpa using htop)]
  rcases Nat.lt_or_ge b.selected_column b.cols.length with hsel | hsel
  · -- the selected column exists
    have hcolmem : b.cols.getD b.selected_column [] ∈ b.cols := by
      rw [List.getD_eq_getElem _ _ hsel]
      exact List.getElem_mem hsel
    have hcollen : (b.cols.getD b.selected_column []).length = BOARD_HEIGHT :=
      hs.2 _ hcolmem
    have htop5 : (b.cols.getD b.selected_column [])[BOARD_HEIGHT - 1]? = some none := by
      have hlt : BOARD_HEIGHT - 1 < (b.cols.getD b.selected_column []).length := by
        rw [hcollen]; decide
      rw [List.getElem?_eq_getElem hlt]
      have := List.getD_eq_getElem (b.cols.getD b.selected_column []) none hlt
      rcases hcell : (b.cols.getD b.selected_column [])[BOARD_HEIGHT - 1] with _ | c
      · rfl
      · rw [this, hcell] at htop
        simp at htop
    rcases exists_least_none _ _ htop5 with ⟨j, hj, hbelow⟩
    have hfct : find_column_top (b.cols.getD b.selected_column []) = j :=
      find_column_top_eq_least _ j hj hbelow
    rw [hfct]
    constructor
    · constructor
      · rw [List.length_set]; exact hs.1
      · intro col hcol
        rcases List.mem_or_eq_of_mem_set hcol with hmem | rfl
        · exact hs.2 _ hmem
        · rw [List.length_set]; exact hcollen
    · intro col hcol
      rcases List.mem_or_eq_of_mem_set hcol with hmem | rfl
      · exact hg _ hmem
      · exact col_gravity_set _ j _ (hg _ hcolmem) hj hbelow
  · -- selection out of range: `set` changes nothing
    rw [List.set_eq_of_length_le hsel]
    exact ⟨hs, hg⟩

/-- Every reachable state has a well-formed grid satisfying gravity. -/
theorem reachable_shape_gravity {b : Board} (h : Reachable b) :
    board_shape b.cols ∧ gravity b.cols := by
  induction h with
  | start turn ht => exact ⟨shape_make_cols, gravity_make_cols⟩
  | step_drop b hb ih => exact shape_gravity_drop b ih.1 ih.2
  | step_left b hb ih => rw [move_left_cols]; exact ih
  | step_right b hb ih => rw [move_right_cols]; exact ih
  | step_reset b rand hb hr ih => exact ⟨shape_make_cols, gravity_make_cols⟩

/-! ## Geometry of the win detector

`mask` lays the grid out column-major (first index = board column,
second index = board row), so `horizontal_kernel` — one region row, four
region columns — in fact matches four consecutive cells of one board
*column* (a vertical line), `vertical_kernel` matches a horizontal line,
`diag1_kernel` the up-right diagonal and `diag2_kernel` the down-right
diagonal.  Together the four kernels cover exactly the four line
directions. -/

/-- Entry `(i, j)` of a 2-D integer grid, `0` outside the grid. -/
def mget (m : List (List Nat)) (i j : Nat) : Nat :=
  (m.getD i []).getD j 0

/-- Four consecutive cells of color `c` in one column (a vertical line
on the board). -/
def has_four_vertical (cols : List (List Cell)) (c : Int) : Prop :=
  ∃ i, i < 7 ∧ ∃ j, j < 3 ∧ ∀ t, t < 4 → cell_at cols i (j + t) = some c

/-- Four consecutive cells of color `c` in one row (a horizontal line on
the board). -/
def has_four_horizontal (cols : List (List Cell)) (c : Int) : Prop :=
  ∃ i, i < 4 ∧ ∃ j, j < 6 ∧ ∀ t, t < 4 → cell_at cols (i + t) j = some c

/-- Four consecutive cells of color `c` along an up-right diagonal. -/
def has_four_diag_up (cols : List (List Cell)) (c : Int) : Prop :=
  ∃ i, i < 4 ∧ ∃ j, j < 3 ∧ ∀ t, t < 4 → cell_at cols (i + t) (j + t) = some c

/-- Four consecutive cells of color `c` along a down-right diagonal. -/
def has_four_diag_down (cols : List (List Cell)) (c : Int) : Prop :=
  ∃ i, i < 4 ∧ ∃ j, j < 3 ∧ ∀ t, t < 4 → cell_at cols (i + t) (j + (3 - t)) = some c

/-- Four consecutive cells of color `c` in any of the four directions. -/
def has_four (cols : List (List Cell)) (c : Int) : Prop :=
  has_four_vertical cols c ∨ has_four_horizontal cols c ∨
    has_four_diag_up cols c ∨ has_four_diag_down cols c

instance (cols : List (List Cell)) : Decidable (board_shape cols) := by
  unfold board_shape
  infer_instance

instance (cols : List (List Cell)) (c : Int) : Decidable (has_four_vertical cols c) := by
  unfold has_four_vertical
  infer_instance

instance (cols : List (List Cell)) (c : Int) : Decidable (has_four_horizontal cols c) := by
  unfold has_four_horizontal
  infer_instance

instance (cols : List (List Cell)) (c : Int) : Decidable (has_four_diag_up cols c) := by
  unfold has_four_diag_up
  infer_instance

instance (cols : List (List Cell)) (c : Int) : Decidable (has_four_diag_down cols c) := by
  unfold has_four_diag_down
  infer_instance

instance (cols : List (List Cell)) (c : Int) : Decidable (has_four cols c) := by
  unfold has_four
  infer_instance

theorem mget_mask (cols : List (List Cell)) (c : Int) (i j : Nat) :
    mget (mask cols c) i j =
      match cell_at cols i j with
      | some c' => if c' == c then 1 else 0
      | none => 0 := by
  rw [mget, cell_at, mask]
  rw [List.getD_eq_getElem?_getD (cols.map _) i, List.getD_eq_getElem?_getD cols i,
    List.getElem?_map]
  rcases h : cols[i]? with _ | col
  · simp
  · simp only [Option.map_some', Option.getD_some]
    rw [List.getD_eq_getElem?_getD (col.map _) j, List.getD_eq_getElem?_getD col j,
      List.getElem?_map]
    rcases h2 : col[j]? with _ | cell
    · simp
    · simp only [Option.map_some', Option.getD_some]

theorem mget_mask_le_one (cols : List (List Cell)) (c : Int) (i j : Nat) :
    mget (mask cols c) i j ≤ 1 := by
  rw [mget_mask]
  rcases cell_at cols i j with _ | c'
  · exact Nat.zero_le 1
  · dsimp only
    split <;> omega

theorem mget_mask_eq_one_iff (cols : List (List Cell)) (c : Int) (i j : Nat) :
    mget (mask cols c) i j = 1 ↔ cell_at cols i j = some c := by
  rw [mget_mask]
  rcases h : cell_at cols i j with _ | c'
  · simp
  · dsimp only
    by_cases hc : c' = c
    · subst hc
      simp
    · simp [hc]

theorem mask_length (cols : List (List Cell)) (c : Int) (hs : board_shape cols) :
    (mask cols c).length = 7 := by
  rw [mask, List.length_map]
  exact hs.1

theorem mask_row_length (cols : List (List Cell)) (c : Int) (hs : board_shape cols) :
    ((mask cols c).getD 0 []).length = 6 := by
  rcases cols with _ | ⟨c0, rest⟩
  · exact absurd hs.1 (by simp [BOARD_WIDTH])
  · have hlen : c0.length = BOARD_HEIGHT := hs.2 c0 (List.mem_cons_self _ _)
    simp [mask, hlen, BOARD_HEIGHT]

theorem convolve_horizontal (m : List (List Nat))
    (h7 : m.length = 7) (h6 : (m.getD 0 []).length = 6) :
    convolve2d m horizontal_kernel =
      (List.range 7).map fun i => (List.range 3).map fun j =>
        1 * mget m i (j + 3) +
          (1 * mget m i (j + 2) + (1 * mget m i (j + 1) + (1 * mget m i j + 0))) := by
  unfold convolve2d
  rw [h7, h6]
  rfl

theorem convolve_vertical (m : List (List Nat))
    (h7 : m.length = 7) (h6 : (m.getD 0 []).length = 6) :
    convolve2d m vertical_kernel =
      (List.range 4).map fun i => (List.range 6).map fun j =>
        (1 * mget m (i + 3) j + 0) +
          ((1 * mget m (i + 2) j + 0) +
            ((1 * mget m (i + 1) j + 0) + ((1 * mget m i j + 0) + 0))) := by
  unfold convolve2d
  rw [h7, h6]
  rfl

theorem convolve_diag1 (m : List (List Nat))
    (h7 : m.length = 7) (h6 : (m.getD 0 []).length = 6) :
    convolve2d m diag1_kernel =
      (List.range 4).map fun i => (List.range 3).map fun j =>
        (1 * mget m (i + 3) (j + 3) +
            (0 * mget m (i + 3) (j + 2) + (0 * mget m (i + 3) (j + 1) + (0 * mget m (i + 3) j + 0)))) +
          ((0 * mget m (i + 2) (j + 3) +
              (1 * mget m (i + 2) (j + 2) + (0 * mget m (i + 2) (j + 1) + (0 * mget m (i + 2) j + 0)))) +
            ((0 * mget m (i + 1) (j + 3) +
                (0 * mget m (i + 1) (j + 2) + (1 * mget m (i + 1) (j + 1) + (0 * mget m (i + 1) j + 0)))) +
              ((0 * mget m i (j + 3) +
                  (0 * mget m i (j + 2) + (0 * mget m i (j + 1) + (1 * mget m i j + 0)))) + 0))) := by
  unfold convolve2d
  rw [h7, h6]
  rfl

theorem convolve_diag2 (m : List (List Nat))
    (h7 : m.length = 7) (h6 : (m.getD 0 []).length = 6) :
    convolve2d m diag2_kernel =
      (List.range 4).map fun i => (List.range 3).map fun j =>
        (0 * mget m (i + 3) (j + 3) +
            (0 * mget m (i + 3) (j + 2) + (0 * mget m (i + 3) (j + 1) + (1 * mget m (i + 3) j + 0)))) +
          ((0 * mget m (i + 2) (j + 3) +
              (0 * mget m (i + 2) (j + 2) + (1 * mget m (i + 2) (j + 1) + (0 * mget m (i + 2) j + 0)))) +
            ((0 * mget m (i + 1) (j + 3) +
                (1 * mget m (i + 1) (j + 2) + (0 * mget m (i + 1) (j + 1) + (0 * mget m (i + 1) j + 0)))) +
              ((1 * mget m i (j + 3) +
                  (0 * mget m i (j + 2) + (0 * mget m i (j + 1) + (0 * mget m i j + 0)))) + 0))) := by
  unfold convolve2d
  rw [h7, h6]
  rfl

theorem kernel_hit_horizontal_iff (m : List (List Nat))
    (h7 : m.length = 7) (h6 : (m.getD 0 []).length = 6) :
    kernel_hit m horizontal_kernel = true ↔
      ∃ i, i < 7 ∧ ∃ j, j < 3 ∧
        mget m i j + mget m i (j + 1) + mget m i (j + 2) + mget m i (j + 3) = 4 := by
  rw [kernel_hit, convolve_horizontal m h7 h6]
  simp only [List.any_eq_true, List.mem_map, List.mem_range, beq_iff_eq]
  constructor
  · rintro ⟨row, ⟨i, hi, rfl⟩, x, hxmem, rfl⟩
    rcases List.mem_map.mp hxmem with ⟨j, hjmem, hfj⟩
    rw [List.mem_range] at hjmem
    exact ⟨i, hi, j, hjmem, by omega⟩
  · rintro ⟨i, hi, j, hj, hsum⟩
    refine ⟨_, ⟨i, hi, rfl⟩, 4, List.mem_map.mpr ⟨j, List.mem_range.mpr hj, by omega⟩, rfl⟩

theorem kernel_hit_vertical_iff (m : List (List Nat))
    (h7 : m.length = 7) (h6 : (m.getD 0 []).length = 6) :
    kernel_hit m vertical_kernel = true ↔
      ∃ i, i < 4 ∧ ∃ j, j < 6 ∧
        mget m i j + mget m (i + 1) j + mget m (i + 2) j + mget m (i + 3) j = 4 := by
  rw [kernel_hit, convolve_vertical m h7 h6]
  simp only [List.any_eq_true, List.mem_map, List.mem_range, beq_iff_eq]
  constructor
  · rintro ⟨row, ⟨i, hi, rfl⟩, x, hxmem, rfl⟩
    rcases List.mem_map.mp hxmem with ⟨j, hjmem, hfj⟩
    rw [List.mem_range] at hjmem
    exact ⟨i, hi, j, hjmem, by omega⟩
  · rintro ⟨i, hi, j, hj, hsum⟩
    refine ⟨_, ⟨i, hi, rfl⟩, 4, List.mem_map.mpr ⟨j, List.mem_range.mpr hj, by omega⟩, rfl⟩

theorem kernel_hit_diag1_iff (m : List (List Nat))
    (h7 : m.length = 7) (h6 : (m.getD 0 []).length = 6) :
    kernel_hit m diag1_kernel = true ↔
      ∃ i, i < 4 ∧ ∃ j, j < 3 ∧
        mget m i j + mget m (i + 1) (j + 1) + mget m (i + 2) (j + 2) +
          mget m (i + 3) (j + 3) = 4 := by
  rw [kernel_hit, convolve_diag1 m h7 h6]
  simp only [List.any_eq_true, List.mem_map, List.mem_range, beq_iff_eq]
  constructor
  · rintro ⟨row, ⟨i, hi, rfl⟩, x, hxmem, rfl⟩
    rcases List.mem_map.mp hxmem with ⟨j, hjmem, hfj⟩
    rw [List.mem_range] at hjmem
    exact ⟨i, hi, j, hjmem, by omega⟩
  · rintro ⟨i, hi, j, hj, hsum⟩
    refine ⟨_, ⟨i, hi, rfl⟩, 4, List.mem_map.mpr ⟨j, List.mem_range.mpr hj, by omega⟩, rfl⟩

theorem kernel_hit_diag2_iff (m : List (List Nat))
    (h7 : m.length = 7) (h6 : (m.getD 0 []).length = 6) :
    kernel_hit m diag2_kernel = true ↔
      ∃ i, i < 4 ∧ ∃ j, j < 3 ∧
        mget m i (j + 3) + mget m (i + 1) (j + 2) + mget m (i + 2) (j + 1) +
          mget m (i + 3) j = 4 := by
  rw [kernel_hit, convolve_diag2 m h7 h6]
  simp only [List.any_eq_true, List.mem_map, List.mem_range, beq_iff_eq]
  constructor
  · rintro ⟨row, ⟨i, hi, rfl⟩, x, hxmem, rfl⟩
    rcases List.mem_map.mp hxmem with ⟨j, hjmem, hfj⟩
    rw [List.mem_range] at hjmem
    exact ⟨i, hi, j, hjmem, by omega⟩
  · rintro ⟨i, hi, j, hj, hsum⟩
    refine ⟨_, ⟨i, hi, rfl⟩, 4, List.mem_map.mpr ⟨j, List.mem_range.mpr hj, by omega⟩, rfl⟩

theorem mask_hit_horizontal (cols : List (List Cell)) (c : Int) (hs : board_shape cols) :
    kernel_hit (mask cols c) horizontal_kernel = true ↔ has_four_vertical cols c := by
  rw [kernel_hit_horizontal_iff _ (mask_length cols c hs) (mask_row_length cols c hs),
    has_four_vertical]
  refine exists_congr fun i => and_congr_right fun hi =>
    exists_congr fun j => and_congr_right fun hj => ?_
  constructor
  · intro hsum
    have b0 := mget_mask_le_one cols c i j
    have b1 := mget_mask_le_one cols c i (j + 1)
    have b2 := mget_mask_le_one cols c i (j + 2)
    have b3 := mget_mask_le_one cols c i (j + 3)
    have e0 : mget (mask cols c) i j = 1 := by omega
    have e1 : mget (mask cols c) i (j + 1) = 1 := by omega
    have e2 : mget (mask cols c) i (j + 2) = 1 := by omega
    have e3 : mget (mask cols c) i (j + 3) = 1 := by omega
    intro t ht
    interval_cases t
    · simpa using (mget_mask_eq_one_iff cols c i j).mp e0
    · exact (mget_mask_eq_one_iff cols c i (j + 1)).mp e1
    · exact (mget_mask_eq_one_iff cols c i (j + 2)).mp e2
    · exact (mget_mask_eq_one_iff cols c i (j + 3)).mp e3
  · intro hall
    have e0 := (mget_mask_eq_one_iff cols c i j).mpr (by simpa using hall 0 (by omega))
    have e1 := (mget_mask_eq_one_iff cols c i (j + 1)).mpr (hall 1 (by omega))
    have e2 := (mget_mask_eq_one_iff cols c i (j + 2)).mpr (hall 2 (by omega))
    have e3 := (mget_mask_eq_one_iff cols c i (j + 3)).mpr (hall 3 (by omega))
    omega

theorem mask_hit_vertical (cols : List (List Cell)) (c : Int) (hs : board_shape cols) :
    kernel_hit (mask cols c) vertical_kernel = true ↔ has_four_horizontal cols c := by
  rw [kernel_hit_vertical_iff _ (mask_length cols c hs) (mask_row_length cols c hs),
    has_four_horizontal]
  refine exists_congr fun i => and_congr_right fun hi =>
    exists_congr fun j => and_congr_right fun hj => ?_
  constructor
  · intro hsum
    have b0 := mget_mask_le_one cols c i j
    have b1 := mget_mask_le_one cols c (i + 1) j
    have b2 := mget_mask_le_one cols c (i + 2) j
    have b3 := mget_mask_le_one cols c (i + 3) j
    have e0 : mget (mask cols c) i j = 1 := by omega
    have e1 : mget (mask cols c) (i + 1) j = 1 := by omega
    have e2 : mget (mask cols c) (i + 2) j = 1 := by omega
    have e3 : mget (mask cols c) (i + 3) j = 1 := by omega
    intro t ht
    interval_cases t
    · simpa using (mget_mask_eq_one_iff cols c i j).mp e0
    · exact (mget_mask_eq_one_iff cols c (i + 1) j).mp e1
    · exact (mget_mask_eq_one_iff cols c (i + 2) j).mp e2
    · exact (mget_mask_eq_one_iff cols c (i + 3) j).mp e3
  · intro hall
    have e0 := (mget_mask_eq_one_iff cols c i j).mpr (by simpa using hall 0 (by omega))
    have e1 := (mget_mask_eq_one_iff cols c (i + 1) j).mpr (hall 1 (by omega))
    have e2 := (mget_mask_eq_one_iff cols c (i + 2) j).mpr (hall 2 (by omega))
    have e3 := (mget_mask_eq_one_iff cols c (i + 3) j).mpr (hall 3 (by omega))
    omega

theorem mask_hit_diag1 (cols : List (List Cell)) (c : Int) (hs : board_shape cols) :
    kernel_hit (mask cols c) diag1_kernel = true ↔ has_four_diag_up cols c := by
  rw [kernel_hit_diag1_iff _ (mask_length cols c hs) (mask_row_length cols c hs),
    has_four_diag_up]
  refine exists_congr fun i => and_congr_right fun hi =>
    exists_congr fun j => and_congr_right fun hj => ?_
  constructor
  · intro hsum
    have b0 := mget_mask_le_one cols c i j
    have b1 := mget_mask_le_one cols c (i + 1) (j + 1)
    have b2 := mget_mask_le_one cols c (i + 2) (j + 2)
    have b3 := mget_mask_le_one cols c (i + 3) (j + 3)
    have e0 : mget (mask cols c) i j = 1 := by omega
    have e1 : mget (mask cols c) (i + 1) (j + 1) = 1 := by omega
    have e2 : mget (mask cols c) (i + 2) (j + 2) = 1 := by omega
    have e3 : mget (mask cols c) (i + 3) (j + 3) = 1 := by omega
    intro t ht
    interval_cases t
    · simpa using (mget_mask_eq_one_iff cols c i j).mp e0
    · exact (mget_mask_eq_one_iff cols c (i + 1) (j + 1)).mp e1
    · exact (mget_mask_eq_one_iff cols c (i + 2) (j + 2)).mp e2
    · exact (mget_mask_eq_one_iff cols c (i + 3) (j + 3)).mp e3
  · intro hall
    have e0 := (mget_mask_eq_one_iff cols c i j).mpr (by simpa using hall 0 (by omega))
    have e1 := (mget_mask_eq_one_iff cols c (i + 1) (j + 1)).mpr (hall 1 (by omega))
    have e2 := (mget_mask_eq_one_iff cols c (i + 2) (j + 2)).mpr (hall 2 (by omega))
    have e3 := (mget_mask_eq_one_iff cols c (i + 3) (j + 3)).mpr (hall 3 (by omega))
    omega

theorem mask_hit_diag2 (cols : List (List Cell)) (c : Int) (hs : board_shape cols) :
    kernel_hit (mask cols c) diag2_kernel = true ↔ has_four_diag_down cols c := by
  rw [kernel_hit_diag2_iff _ (mask_length cols c hs) (mask_row_length cols c hs),
    has_four_diag_down]
  refine exists_congr fun i => and_congr_right fun hi =>
    exists_congr fun j => and_congr_right fun hj => ?_
  constructor
  · intro hsum
    have b0 := mget_mask_le_one cols c i (j + 3)
    have b1 := mget_mask_le_one cols c (i + 1) (j + 2)
    have b2 := mget_mask_le_one cols c (i + 2) (j + 1)
    have b3 := mget_mask_le_one cols c (i + 3) j
    have e0 : mget (mask cols c) i (j + 3) = 1 := by omega
    have e1 : mget (mask cols c) (i + 1) (j + 2) = 1 := by omega
    have e2 : mget (mask cols c) (i + 2) (j + 1) = 1 := by omega
    have e3 : mget (mask cols c) (i + 3) j = 1 := by omega
    intro t ht
    interval_cases t
    · simpa using (mget_mask_eq_one_iff cols c i (j + 3)).mp e0
    · simpa using (mget_mask_eq_one_iff cols c (i + 1) (j + 2)).mp e1
    · simpa using (mget_mask_eq_one_iff cols c (i + 2) (j + 1)).mp e2
    · simpa using (mget_mask_eq_one_iff cols c (i + 3) j).mp e3
  · intro hall
    have e0 := (mget_mask_eq_one_iff cols c i (j + 3)).mpr (by simpa using hall 0 (by omega))
    have e1 := (mget_mask_eq_one_iff cols c (i + 1) (j + 2)).mpr (by simpa using hall 1 (by omega))
    have e2 := (mget_mask_eq_one_iff cols c (i + 2) (j + 1)).mpr (by simpa using hall 2 (by omega))
    have e3 := (mget_mask_eq_one_iff cols c (i + 3) j).mpr (by simpa using hall 3 (by omega))
    omega

/-! ## `check_win` against the geometric predicates -/

theorem check_win_of_red_four (cols : List (List Cell)) (hs : board_shape cols)
    (hred : has_four cols RED) (hyel : ¬ has_four cols YELLOW) :
    check_win cols = some RED := by
  have hYh : kernel_hit (mask cols YELLOW) horizontal_kernel = false :=
    Bool.eq_false_iff.mpr fun h =>
      hyel (Or.inl ((mask_hit_horizontal cols YELLOW hs).mp h))
  have hYv : kernel_hit (mask cols YELLOW) vertical_kernel = false :=
    Bool.eq_false_iff.mpr fun h =>
      hyel (Or.inr (Or.inl ((mask_hit_vertical cols YELLOW hs).mp h)))
  have hYu : kernel_hit (mask cols YELLOW) diag1_kernel = false :=
    Bool.eq_false_iff.mpr fun h =>
      hyel (Or.inr (Or.inr (Or.inl ((mask_hit_diag1 cols YELLOW hs).mp h))))
  by_cases h1 : kernel_hit (mask cols RED) horizontal_kernel = true
  · simp [check_win, h1]
  · by_cases h2 : kernel_hit (mask cols RED) vertical_kernel = true
    · simp [check_win, h1, h2, hYh]
    · by_cases h3 : kernel_hit (mask cols RED) diag1_kernel = true
      · simp [check_win, h1, h2, h3, hYh, hYv]
      · by_cases h4 : kernel_hit (mask cols RED) diag2_kernel = true
        · simp [check_win, h1, h2, h3, h4, hYh, hYv, hYu]
        · exfalso
          rcases hred with hv | hh | hu | hd
          · exact h1 ((mask_hit_horizontal cols RED hs).mpr hv)
          · exact h2 ((mask_hit_vertical cols RED hs).mpr hh)
          · exact h3 ((mask_hit_diag1 cols RED hs).mpr hu)
          · exact h4 ((mask_hit_diag2 cols RED hs).mpr hd)

theorem check_win_of_yellow_four (cols : List (List Cell)) (hs : board_shape cols)
    (hyel : has_four cols YELLOW) (hred : ¬ has_four cols RED) :
    check_win cols = some YELLOW := by
  have hRh : kernel_hit (mask cols RED) horizontal_kernel = false :=
    Bool.eq_false_iff.mpr fun h =>
      hred (Or.inl ((mask_hit_horizontal cols RED hs).mp h))
  have hRv : kernel_hit (mask cols RED) vertical_kernel = false :=
    Bool.eq_false_iff.mpr fun h =>
      hred (Or.inr (Or.inl ((mask_hit_vertical cols RED hs).mp h)))
  have hRu : kernel_hit (mask cols RED) diag1_kernel = false :=
    Bool.eq_false_iff.mpr fun h =>
      hred (Or.inr (Or.inr (Or.inl ((mask_hit_diag1 cols RED hs).mp h))))
  have hRd : kernel_hit (mask cols RED) diag2_kernel = false :=
    Bool.eq_false_iff.mpr fun h =>
      hred (Or.inr (Or.inr (Or.inr ((mask_hit_diag2 cols RED hs).mp h))))
  by_cases h1 : kernel_hit (mask cols YELLOW) horizontal_kernel = true
  · simp [check_win, hRh, h1]
  · by_cases h2 : kernel_hit (mask cols YELLOW) vertical_kernel = true
    · simp [check_win, hRh, hRv, h1, h2]
    · by_cases h3 : kernel_hit (mask cols YELLOW) diag1_kernel = true
      · simp [check_win, hRh, hRv, hRu, h1, h2, h3]
      · by_cases h4 : kernel_hit (mask cols YELLOW) diag2_kernel = true
        · simp [check_win, hRh, hRv, hRu, hRd, h1, h2, h3, h4]
        · exfalso
          rcases hyel with hv | hh | hu | hd
          · exact h1 ((mask_hit_horizontal cols YELLOW hs).mpr hv)
          · exact h2 ((mask_hit_vertical cols YELLOW hs).mpr hh)
          · exact h3 ((mask_hit_diag1 cols YELLOW hs).mpr hu)
          · exact h4 ((mask_hit_diag2 cols YELLOW hs).mpr hd)

theorem check_win_of_no_four (cols : List (List Cell)) (hs : board_shape cols)
    (hred : ¬ has_four cols RED) (hyel : ¬ has_four cols YELLOW) :
    check_win cols = if is_full cols then some (-1) else none := by
  have hRh : kernel_hit (mask cols RED) horizontal_kernel = false :=
    Bool.eq_false_iff.mpr fun h =>
      hred (Or.inl ((mask_hit_horizontal cols RED hs).mp h))
  have hRv : kernel_hit (mask cols RED) vertical_kernel = false :=
    Bool.eq_false_iff.mpr fun h =>
      hred (Or.inr (Or.inl ((mask_hit_vertical cols RED hs).mp h)))
  have hRu : kernel_hit (mask cols RED) diag1_kernel = false :=
    Bool.eq_false_iff.mpr fun h =>
      hred (Or.inr (Or.inr (Or.inl ((mask_hit_diag1 cols RED hs).mp h))))
  have hRd : kernel_hit (mask cols RED) diag2_kernel = false :=
    Bool.eq_false_iff.mpr fun h =>
      hred (Or.inr (Or.inr (Or.inr ((mask_hit_diag2 cols RED hs).mp h))))
  have hYh : kernel_hit (mask cols YELLOW) horizontal_kernel = false :=
    Bool.eq_false_iff.mpr fun h =>
      hyel (Or.inl ((mask_hit_horizontal cols YELLOW hs).mp h))
  have hYv : kernel_hit (mask cols YELLOW) vertical_kernel = false :=
    Bool.eq_false_iff.mpr fun h =>
      hyel (Or.inr (Or.inl ((mask_hit_vertical cols YELLOW hs).mp h)))
  have hYu : kernel_hit (mask cols YELLOW) diag1_kernel = false :=
    Bool.eq_false_iff.mpr fun h =>
      hyel (Or.inr (Or.inr (Or.inl ((mask_hit_diag1 cols YELLOW hs).mp h))))
  have hYd : kernel_hit (mask cols YELLOW) diag2_kernel = false :=
    Bool.eq_false_iff.mpr fun h =>
      hyel (Or.inr (Or.inr (Or.inr ((mask_hit_diag2 cols YELLOW hs).mp h))))
  simp [check_win, hRh, hRv, hRu, hRd, hYh, hYv, hYu, hYd]

/-- A board in which red holds a vertical four in column 0 and yellow a
vertical four in column 1 — both colors "win" simultaneously. -/
def both_win_board : List (List Cell) :=
  [[some RED, some RED, some RED, some RED, none, none],
   [some YELLOW, some YELLOW, some YELLOW, some YELLOW, none, none],
   [none, none, none, none, none, none],
   [none, none, none, none, none, none],
   [none, none, none, none, none, none],
   [none, none, none, none, none, none],
   [none, none, none, none, none, none]]

/-- A board in which only red holds a four (vertical, column 0). -/
def red_win_board : List (List Cell) :=
  [[some RED, some RED, some RED, some RED, none, none],
   [none, none, none, none, none, none],
   [none, none, none, none, none, none],
   [none, none, none, none, none, none],
   [none, none, none, none, none, none],
   [none, none, none, none, none, none],
   [none, none, none, none, none, none]]

/-- A full board with no four-in-a-row of either color. -/
def draw_board : List (List Cell) :=
  [[some RED, some YELLOW, some RED, some YELLOW, some RED, some YELLOW],
   [some RED, some YELLOW, some RED, some YELLOW, some RED, some YELLOW],
   [some YELLOW, some RED, some YELLOW, some RED, some YELLOW, some RED],
   [some YELLOW, some RED, some YELLOW, some RED, some YELLOW, some RED],
   [some RED, some YELLOW, some RED, some YELLOW, some RED, some YELLOW],
   [some RED, some YELLOW, some RED, some YELLOW, some RED, some YELLOW],
   [some YELLOW, some RED, some YELLOW, some RED, some YELLOW, some RED]]

/-- C1 (amended): if one color holds four consecutive cells in some
direction and the other color holds none, `_check_win` reports the first
color as the winner.  (The unamended claim fails when both colors hold a
four at once: the fixed kernel/color scan order then decides.) -/
theorem c1_kernel_win_detection (cols : List (List Cell)) (c : Int)
    (hs : board_shape cols) (hc : c = RED ∨ c = YELLOW)
    (hfour : has_four cols c)
    (hother : ¬ has_four cols (if c = RED then YELLOW else RED)) :
    check_win cols = some c := by
  rcases hc with rfl | rfl
  · exact check_win_of_red_four cols hs hfour (by simpa [RED, YELLOW] using hother)
  · exact check_win_of_yellow_four cols hs hfour (by simpa [RED, YELLOW] using hother)

/-- C1 counterexample: on a board where yellow holds a four but red does
too, `_check_win` reports red, not yellow — the claim "reports that
color" fails for yellow. -/
theorem c1_counterexample :
    has_four both_win_board YELLOW ∧
      check_win both_win_board = some RED ∧
      check_win both_win_board ≠ some YELLOW :=
  ⟨by decide, by decide, by decide⟩

theorem c1_witness :
    board_shape red_win_board ∧ (RED = RED ∨ RED = YELLOW) ∧
      has_four red_win_board RED ∧
      ¬ has_four red_win_board (if RED = RED then YELLOW else RED) ∧
      check_win red_win_board = some RED :=
  ⟨by decide, Or.inl rfl, by decide, by decide,
    c1_kernel_win_detection red_win_board RED (by decide) (Or.inl rfl)
      (by decide) (by decide)⟩

/-- C6: on a full board (`_is_full` true: every column's top cell at
index `BOARD_HEIGHT - 1` is occupied) with no four-in-a-row of either
color in any of the four directions, `_check_win` reports the tie value
`-1` (Draw), never "no outcome". -/
theorem c6_draw_precedence (cols : List (List Cell)) (hs : board_shape cols)
    (hfull : is_full cols = true)
    (hred : ¬ has_four cols RED) (hyel : ¬ has_four cols YELLOW) :
    check_win cols = some (-1) := by
  rw [check_win_of_no_four cols hs hred hyel, hfull]
  simp

theorem c6_witness :
    board_shape draw_board ∧ is_full draw_board = true ∧
      ¬ has_four draw_board RED ∧ ¬ has_four draw_board YELLOW ∧
      check_win draw_board = some (-1) :=
  ⟨by decide, by decide, by decide, by decide,
    c6_draw_precedence draw_board (by decide) (by decide) (by decide) (by decide)⟩

/-- C7: on a board with no four consecutive same-color cells in any of
the four directions (every same-color run has length at most 3) that is
not full, `_check_win` reports no outcome. -/
theorem c7_no_false_win (cols : List (List Cell)) (hs : board_shape cols)
    (hred : ¬ has_four cols RED) (hyel : ¬ has_four cols YELLOW)
    (hnotfull : is_full cols = false) :
    check_win cols = none := by
  rw [check_win_of_no_four cols hs hred hyel, hnotfull]
  simp

theorem c7_witness :
    board_shape make_cols ∧ ¬ has_four make_cols RED ∧
      ¬ has_four make_cols YELLOW ∧ is_full make_cols = false ∧
      check_win make_cols = none :=
  ⟨by decide, by decide, by decide, by decide,
    c7_no_false_win make_cols (by decide) (by decide) (by decide) (by decide)⟩

/-! ## Drop, reset and the remaining claims -/

/-- C2: whenever `drop_token` succeeds (not locked, selected column not
full), it returns `True`, the current player's token is written at the
row returned by `_find_column_top`, and then: if `_check_win` reports an
outcome, `game_over` is set, the outcome is stored in `winner` and the
board stays locked; if it reports none, the turn flips to the other
color and the lock releases. -/
theorem c2_drop_success (b : Board)
    (hlock : b.lock = false)
    (htop : (b.cols.getD b.selected_column []).getD (BOARD_HEIGHT - 1) none = none) :
    (drop_token b).2 = true ∧
      (drop_token b).1.cols =
        b.cols.set b.selected_column
          ((b.cols.getD b.selected_column []).set
            (find_column_top (b.cols.getD b.selected_column [])) (some b.current_turn)) ∧
      (match check_win
          (b.cols.set b.selected_column
            ((b.cols.getD b.selected_column []).set
              (find_column_top (b.cols.getD b.selected_column [])) (some b.current_turn))) with
       | some w =>
           (drop_token b).1.game_over = true ∧ (drop_token b).1.winner = some w ∧
             (drop_token b).1.lock = true ∧ (drop_token b).1.current_turn = b.current_turn
       | none =>
           (drop_token b).1.game_over = b.game_over ∧ (drop_token b).1.winner = b.winner ∧
             (drop_token b).1.lock = false ∧
             (drop_token b).1.current_turn =
               (if b.current_turn = RED then YELLOW else RED)) := by
  have hts : ((b.cols.getD b.selected_column []).getD (BOARD_HEIGHT - 1) none).isSome
      = false := by
    rw [htop]
    rfl
  rw [drop_token, hlock]
  simp only [Bool.false_eq_true, if_false, hts]
  rcases h : check_win
      (b.cols.set b.selected_column
        ((b.cols.getD b.selected_column []).set
          (find_column_top (b.cols.getD b.selected_column [])) (some b.current_turn))) with
    _ | w <;> simp [h]

theorem c2_witness :
    (drop_token (init_board RED)).2 = true ∧
      (drop_token (init_board RED)).1.cols =
        (init_board RED).cols.set (init_board RED).selected_column
          (((init_board RED).cols.getD (init_board RED).selected_column []).set
            (find_column_top ((init_board RED).cols.getD (init_board RED).selected_column []))
            (some (init_board RED).current_turn)) := by
  have h := c2_drop_success (init_board RED) rfl (by decide)
  exact ⟨h.1, h.2.1⟩

/-- C3: every state reachable from the initial empty board by any
sequence of `drop_token`, `move_left`, `move_right` and `reset`
satisfies gravity — below every occupied cell of a column, every cell is
occupied. -/
theorem c3_gravity_invariant (b : Board) (h : Reachable b) : gravity b.cols :=
  (reachable_shape_gravity h).2

theorem c3_witness : gravity (init_board RED).cols :=
  c3_gravity_invariant (init_board RED) (Reachable.start RED (Or.inl rfl))

/-- Applies `drop_token` `n` times from a state. -/
def iterate_drop (b : Board) : Nat → Board
  | 0 => b
  | n + 1 => (drop_token (iterate_drop b n)).1

/-- The freshly initialized board with the selection cursor on column
`c` (as reached from `init_board` by `move_left` / `move_right`). -/
def start_at (c : Nat) : Board :=
  { init_board RED with selected_column := c }

/-- C4 counterexample: after `N = 1` successful drop into the initially
selected column 3, `_find_column_top` returns `1`, not `H − N = 5`. -/
theorem c4_counterexample :
    (drop_token (init_board RED)).2 = true ∧
      find_column_top ((drop_token (init_board RED)).1.cols.getD 3 []) = 1 ∧
      (1 : Nat) ≠ BOARD_HEIGHT - 1 :=
  ⟨by decide, by decide, by decide⟩

theorem iterate_drop_zero (b : Board) : iterate_drop b 0 = b := rfl

theorem iterate_drop_succ (b : Board) (n : Nat) :
    iterate_drop b (n + 1) = (drop_token (iterate_drop b n)).1 := rfl

/-- The column contents after `k` drops with red moving first: rows
below `k` alternate red (even rows) and yellow (odd rows); rows from `k`
up are empty. -/
def alt_col (k : Nat) : List Cell :=
  (List.range BOARD_HEIGHT).map fun j =>
    if j < k then some (if j % 2 = 0 then RED else YELLOW) else none

theorem alt_col_length (k : Nat) : (alt_col k).length = BOARD_HEIGHT := by
  simp [alt_col]

theorem alt_col_getElem? (k j : Nat) (hj : j < BOARD_HEIGHT) :
    (alt_col k)[j]? =
      some (if j < k then some (if j % 2 = 0 then RED else YELLOW) else none) := by
  rw [alt_col, List.getElem?_map, List.getElem?_range hj]
  rfl

theorem alt_col_getD (k j : Nat) (hj : j < BOARD_HEIGHT) :
    (alt_col k).getD j none =
      if j < k then some (if j % 2 = 0 then RED else YELLOW) else none := by
  rw [List.getD_eq_getElem?_getD, alt_col_getElem? k j hj]
  rfl

theorem alt_col_zero : alt_col 0 = List.replicate BOARD_HEIGHT none := by decide

theorem set_alt_col_zero (c : Nat) : make_cols.set c (alt_col 0) = make_cols := by
  rw [alt_col_zero, make_cols]
  apply List.ext_getElem?
  intro n
  rw [List.getElem?_set]
  split_ifs with h1 h2
  · subst h1
    rw [List.getElem?_replicate, if_pos (by simpa using h2)]
  · subst h1
    rw [List.getElem?_replicate, if_neg (by simpa using h2)]
  · rfl

theorem getD_set_self (c : Nat) (hc : c < BOARD_WIDTH) (col : List Cell) :
    (make_cols.set c col).getD c [] = col := by
  rw [List.getD_eq_getElem?_getD, List.getElem?_set, if_pos rfl,
    if_pos (by simpa [make_cols] using hc)]
  rfl

theorem cell_at_set_single (c : Nat) (hc : c < BOARD_WIDTH) (col : List Cell) (i j : Nat) :
    cell_at (make_cols.set c col) i j =
      if i = c then col.getD j none else none := by
  rw [cell_at, List.getD_eq_getElem?_getD (make_cols.set c col) i, List.getElem?_set]
  by_cases h : c = i
  · rw [if_pos h, if_pos (by simpa [make_cols, BOARD_WIDTH] using hc), if_pos h.symm]
    rfl
  · rw [if_neg h, if_neg fun hh => h hh.symm, make_cols, List.getElem?_replicate]
    split_ifs with hi
    · show (List.replicate BOARD_HEIGHT (none : Cell)).getD j none = none
      rw [List.getD_eq_getElem?_getD, List.getElem?_replicate]
      split_ifs <;> rfl
    · rfl

theorem foldl_and_of_false {α : Type} (g : α → Bool) :
    ∀ l : List α, l.foldl (fun a y => g y && a) false = false := by
  intro l
  induction l with
  | nil => rfl
  | cons y ys ih =>
      rw [List.foldl_cons, Bool.and_false]
      exact ih

theorem foldl_and_mem_false {α : Type} (g : α → Bool) (x : α) :
    ∀ (l : List α) (b : Bool), x ∈ l → g x = false →
      l.foldl (fun a y => g y && a) b = false := by
  intro l
  induction l with
  | nil =>
      intro b h
      cases h
  | cons y ys ih =>
      intro b hmem hgx
      rw [List.foldl_cons]
      rcases List.mem_cons.mp hmem with rfl | hmem
      · rw [hgx, Bool.false_and]
        exact foldl_and_of_false g ys
      · exact ih _ hmem hgx

theorem is_full_set_single (c : Nat) (col : List Cell) :
    is_full (make_cols.set c col) = false := by
  rw [is_full]
  have hne : (if c = 0 then 1 else 0) ≠ c := by
    split_ifs with h <;> omega
  have hentry : (make_cols.set c col)[(if c = 0 then 1 else 0 : Nat)]? =
      some (List.replicate BOARD_HEIGHT (none : Cell)) := by
    rw [List.getElem?_set, if_neg fun hh => hne hh.symm, make_cols,
      List.getElem?_replicate, if_pos (by split_ifs <;> decide)]
  have hmem : List.replicate BOARD_HEIGHT (none : Cell) ∈ make_cols.set c col := by
    rcases List.getElem?_eq_some.mp hentry with ⟨hlt2, heq⟩
    rw [← heq]
    exact List.getElem_mem hlt2
  exact foldl_and_mem_false _ _ _ true hmem (by decide)

theorem shape_set_single (c : Nat) (col : List Cell)
    (hcol : col.length = BOARD_HEIGHT) :
    board_shape (make_cols.set c col) := by
  constructor
  · rw [List.length_set]
    simp [make_cols]
  · intro x hx
    rcases List.mem_or_eq_of_mem_set hx with hx | rfl
    · rcases List.mem_replicate.mp (by simpa [make_cols] using hx) with ⟨-, rfl⟩
      simp
    · exact hcol

theorem alt_no_adjacent (k : Nat) :
    ∀ j : Nat, j + 1 < BOARD_HEIGHT → ∀ x y : Int,
      (alt_col k).getD j none = some x → (alt_col k).getD (j + 1) none = some y →
      x ≠ y := by
  intro j hj x y hx hy
  rw [alt_col_getD k j (by omega)] at hx
  rw [alt_col_getD k (j + 1) hj] at hy
  by_cases h1 : j < k
  · rw [if_pos h1] at hx
    by_cases h2 : j + 1 < k
    · rw [if_pos h2] at hy
      obtain rfl : (if j % 2 = 0 then RED else YELLOW) = x := Option.some.inj hx
      obtain rfl : (if (j + 1) % 2 = 0 then RED else YELLOW) = y := Option.some.inj hy
      by_cases hp : j % 2 = 0
      · have hp1 : ¬ (j + 1) % 2 = 0 := by omega
        rw [if_pos hp, if_neg hp1]
        decide
      · have hp1 : (j + 1) % 2 = 0 := by omega
        rw [if_neg hp, if_pos hp1]
        decide
    · rw [if_neg h2] at hy
      simp at hy
  · rw [if_neg h1] at hx
    simp at hx

theorem single_col_no_four (c : Nat) (hc : c < BOARD_WIDTH) (col : List Cell)
    (halt : ∀ j : Nat, j + 1 < BOARD_HEIGHT → ∀ x y : Int,
      col.getD j none = some x → col.getD (j + 1) none = some y → x ≠ y)
    (color : Int) : ¬ has_four (make_cols.set c col) color := by
  rintro (⟨i, hi, j, hj, hall⟩ | ⟨i, hi, j, hj, hall⟩ | ⟨i, hi, j, hj, hall⟩ |
    ⟨i, hi, j, hj, hall⟩)
  · -- vertical: two adjacent cells of column i share the color
    have h0 := hall 0 (by omega)
    have h1 := hall 1 (by omega)
    rw [cell_at_set_single c hc col i (j + 0)] at h0
    rw [cell_at_set_single c hc col i (j + 1)] at h1
    by_cases hic : i = c
    · rw [if_pos hic] at h0 h1
      exact halt j (by simp only [BOARD_HEIGHT] at hj ⊢; omega) color color
        (by simpa using h0) h1 rfl
    · rw [if_neg hic] at h0
      simp at h0
  · -- horizontal: spans two distinct columns, one of them empty
    have h0 := hall 0 (by omega)
    have h1 := hall 1 (by omega)
    rw [cell_at_set_single c hc col (i + 0) j] at h0
    rw [cell_at_set_single c hc col (i + 1) j] at h1
    by_cases hic : i + 0 = c
    · rw [if_neg (by omega)] at h1
      simp at h1
    · rw [if_neg hic] at h0
      simp at h0
  · -- up-right diagonal: spans two distinct columns
    have h0 := hall 0 (by omega)
    have h1 := hall 1 (by omega)
    rw [cell_at_set_single c hc col (i + 0) (j + 0)] at h0
    rw [cell_at_set_single c hc col (i + 1) (j + 1)] at h1
    by_cases hic : i + 0 = c
    · rw [if_neg (by omega)] at h1
      simp at h1
    · rw [if_neg hic] at h0
      simp at h0
  · -- down-right diagonal: spans two distinct columns
    have h0 := hall 0 (by omega)
    have h1 := hall 1 (by omega)
    rw [cell_at_set_single c hc col (i + 0) (j + (3 - 0))] at h0
    rw [cell_at_set_single c hc col (i + 1) (j + (3 - 1))] at h1
    by_cases hic : i + 0 = c
    · rw [if_neg (by omega)] at h1
      simp at h1
    · rw [if_neg hic] at h0
      simp at h0

theorem find_column_top_alt (k : Nat) (hk : k < BOARD_HEIGHT) :
    find_column_top (alt_col k) = k := by
  apply find_column_top_eq_least
  · rw [alt_col_getElem? k k hk, if_neg (by omega)]
  · intro i hik
    rw [alt_col_getElem? k i (by omega), if_pos hik]
    simp

theorem drop_step (c : Nat) (hc : c < BOARD_WIDTH) (k : Nat) (hk : k ≤ 5) :
    drop_token
      (Board.mk (make_cols.set c (alt_col k)) c
        (if k % 2 = 0 then RED else YELLOW) false none false none) =
      (Board.mk (make_cols.set c (alt_col (k + 1))) c
        (if (k + 1) % 2 = 0 then RED else YELLOW) false none false none, true) := by
  have hget : (make_cols.set c (alt_col k)).getD c [] = alt_col k := getD_set_self c hc _
  have htop : ((alt_col k).getD (BOARD_HEIGHT - 1) none).isSome = false := by
    rw [alt_col_getD k (BOARD_HEIGHT - 1) (by simp [BOARD_HEIGHT]),
      if_neg (by simp only [BOARD_HEIGHT]; omega)]
    rfl
  have hfct : find_column_top (alt_col k) = k :=
    find_column_top_alt k (by simp only [BOARD_HEIGHT]; omega)
  have hnew : (alt_col k).set k (some (if k % 2 = 0 then RED else YELLOW)) =
      alt_col (k + 1) := by
    apply List.ext_getElem?
    intro n
    rw [List.getElem?_set]
    by_cases hn6 : n < BOARD_HEIGHT
    · rw [alt_col_getElem? (k + 1) n hn6]
      by_cases hkn : k = n
      · subst hkn
        rw [if_pos rfl, if_pos (show k < (alt_col k).length by rw [alt_col_length]; exact hn6),
          if_pos (Nat.lt_succ_self k)]
      · rw [if_neg hkn, alt_col_getElem? k n hn6]
        by_cases hnk : n < k
        · rw [if_pos hnk, if_pos (show n < k + 1 by omega)]
        · rw [if_neg hnk, if_neg (show ¬ n < k + 1 by omega)]
    · have hkn : k ≠ n := by
        simp only [BOARD_HEIGHT] at hn6
        omega
      rw [if_neg hkn,
        List.getElem?_eq_none_iff.mpr (by rw [alt_col_length]; omega),
        List.getElem?_eq_none_iff.mpr (by rw [alt_col_length]; omega)]
  have hshape : board_shape (make_cols.set c (alt_col (k + 1))) :=
    shape_set_single c _ (alt_col_length (k + 1))
  have hcw : check_win (make_cols.set c (alt_col (k + 1))) = none := by
    rw [check_win_of_no_four _ hshape
      (single_col_no_four c hc _ (alt_no_adjacent (k + 1)) RED)
      (single_col_no_four c hc _ (alt_no_adjacent (k + 1)) YELLOW),
      is_full_set_single]
    simp
  rw [drop_token]
  simp only [hget, htop, hfct, hnew, List.set_set, hcw, Bool.false_eq_true, if_false]
  by_cases hpar : k % 2 = 0
  · have hpar1 : ¬ (k + 1) % 2 = 0 := by omega
    simp [hpar, hpar1, RED, YELLOW]
  · have hpar1 : (k + 1) % 2 = 0 := by omega
    simp [hpar, hpar1, RED, YELLOW]

theorem iterate_drop_eq (c : Nat) (hc : c < BOARD_WIDTH) :
    ∀ k : Nat, k ≤ BOARD_HEIGHT →
      iterate_drop (start_at c) k =
        Board.mk (make_cols.set c (alt_col k)) c
          (if k % 2 = 0 then RED else YELLOW) false none false none := by
  intro k
  induction k with
  | zero =>
      intro _
      rw [iterate_drop_zero]
      show start_at c = _
      rw [start_at, init_board, set_alt_col_zero]
      rfl
  | succ k ih =>
      intro hk
      rw [iterate_drop_succ, ih (by simp only [BOARD_HEIGHT] at hk ⊢; omega),
        drop_step c hc k (by simp only [BOARD_HEIGHT] at hk; omega)]

/-- C4 (amended): for every column `c` and every `N ≤ H`, after `N`
successful drops into column `c` (starting from the fresh board), every
one of the `N` drops succeeds, the column's occupied cells are exactly
the indices below `N` (a contiguous run from index 0), and
`_find_column_top` returns `N` while `N < H`, and the sentinel `9999`
when the column is full (`N = H`). -/
theorem c4_lowest_empty_row (c : Nat) (hc : c < BOARD_WIDTH) (N : Nat)
    (hN : N ≤ BOARD_HEIGHT) :
    (∀ k : Nat, k < N → (drop_token (iterate_drop (start_at c) k)).2 = true) ∧
      find_column_top ((iterate_drop (start_at c) N).cols.getD c []) =
        (if N < BOARD_HEIGHT then N else 9999) ∧
      (∀ j : Nat, j < BOARD_HEIGHT →
        ((((iterate_drop (start_at c) N).cols.getD c []).getD j none).isSome = true ↔
          j < N)) := by
  refine ⟨?_, ?_, ?_⟩
  · intro k hk
    rw [iterate_drop_eq c hc k (by omega),
      drop_step c hc k (by simp only [BOARD_HEIGHT] at hN; omega)]
  · rw [iterate_drop_eq c hc N hN]
    show find_column_top ((make_cols.set c (alt_col N)).getD c []) = _
    rw [getD_set_self c hc]
    by_cases hN6 : N < BOARD_HEIGHT
    · rw [if_pos hN6]
      exact find_column_top_alt N hN6
    · rw [if_neg hN6]
      apply find_column_top_of_full
      intro j hj
      rw [alt_col_length] at hj
      rw [alt_col_getElem? N j hj, if_pos (by simp only [BOARD_HEIGHT] at *; omega)]
      simp
  · intro j hj
    rw [iterate_drop_eq c hc N hN]
    show ((((make_cols.set c (alt_col N)).getD c []).getD j none).isSome = true) ↔ _
    rw [getD_set_self c hc, alt_col_getD N j hj]
    by_cases hjN : j < N
    · rw [if_pos hjN]
      simp [hjN]
    · rw [if_neg hjN]
      simp [hjN]

theorem c4_witness :
    (3 : Nat) < BOARD_WIDTH ∧ (2 : Nat) ≤ BOARD_HEIGHT ∧
      find_column_top ((iterate_drop (start_at 3) 2).cols.getD 3 []) =
        (if 2 < BOARD_HEIGHT then 2 else 9999) := by
  refine ⟨by decide, by decide, ?_⟩
  exact (c4_lowest_empty_row 3 (by decide) 2 (by decide)).2.1

/-- C5: `reset` after a red win gives a fresh empty grid, clears the
outcome, the lock and the status message, and hands the next turn to the
previous winner (red), whatever the random fallback would have been. -/
theorem c5_reset_after_red_win (b : Board) (r : Int) (h : b.winner = some RED) :
    (reset b r).cols = make_cols ∧ (reset b r).winner = none ∧
      (reset b r).lock = false ∧ (reset b r).game_over = false ∧
      (reset b r).status_message = none ∧ (reset b r).current_turn = RED := by
  simp [reset, h, RED]

/-- A finished game won by red. -/
def finished_red_board : Board :=
  { init_board YELLOW with winner := some RED, game_over := true, lock := true }

theorem c5_witness :
    finished_red_board.winner = some RED ∧
      (reset finished_red_board 2).cols = make_cols ∧
      (reset finished_red_board 2).current_turn = RED := by
  have h := c5_reset_after_red_win finished_red_board 2 rfl
  exact ⟨rfl, h.1, h.2.2.2.2.2⟩

/-- C8: `drop_token` called while the board is locked, or while the
selected column is full, returns `False` and leaves the whole state
unchanged. -/
theorem c8_drop_failure (b : Board)
    (h : b.lock = true ∨
      ((b.cols.getD b.selected_column []).getD (BOARD_HEIGHT - 1) none).isSome = true) :
    drop_token b = (b, false) := by
  rw [drop_token]
  rcases h with h | h
  · rw [h]
    simp
  · by_cases hl : b.lock = true
    · rw [hl]
      simp
    · rw [Bool.eq_false_iff.mpr hl]
      simp only [Bool.false_eq_true, if_false]
      rw [if_pos h]

/-- A board locked mid-animation. -/
def locked_board : Board :=
  { init_board RED with lock := true }

theorem c8_witness :
    (locked_board.lock = true ∨
        ((locked_board.cols.getD locked_board.selected_column []).getD
          (BOARD_HEIGHT - 1) none).isSome = true) ∧
      drop_token locked_board = (locked_board, false) :=
  ⟨Or.inl rfl, c8_drop_failure locked_board (Or.inl rfl)⟩

/-- C9: on a full column, `_find_column_top` yields the sentinel `9999`
(no valid row index, the "not found" signal), and `drop_token` — the
only caller — rejects the drop outright on any board whose selected
column is that full column, so the sentinel is never used as a row
index. -/
theorem c9_full_column_not_found (col : List Cell)
    (hlen : col.length = BOARD_HEIGHT)
    (hfull : ∀ j : Nat, j < col.length → col[j]? ≠ some none) :
    find_column_top col = 9999 ∧
      ∀ b : Board, b.cols.getD b.selected_column [] = col → drop_token b = (b, false) := by
  constructor
  · exact find_column_top_of_full col hfull
  · intro b hb
    have hlt : BOARD_HEIGHT - 1 < col.length := by
      rw [hlen]
      decide
    have h5 : (col.getD (BOARD_HEIGHT - 1) none).isSome = true := by
      have hne := hfull _ hlt
      rw [List.getD_eq_getElem _ _ hlt]
      rcases hcell : col[BOARD_HEIGHT - 1] with _ | c
      · exact absurd (by rw [List.getElem?_eq_getElem hlt, hcell]) hne
      · rfl
    rw [drop_token]
    by_cases hl : b.lock = true
    · rw [hl]
      simp
    · rw [Bool.eq_false_iff.mpr hl]
      simp only [Bool.false_eq_true, if_false]
      rw [hb, if_pos h5]

/-- A column holding six tokens. -/
def full_column : List Cell :=
  [some RED, some YELLOW, some RED, some YELLOW, some RED, some YELLOW]

theorem c9_witness :
    full_column.length = BOARD_HEIGHT ∧ find_column_top full_column = 9999 := by
  refine ⟨by decide, ?_⟩
  exact (c9_full_column_not_found full_column (by decide) (by decide)).1

/-- C10: `reset` keeps `selected_column` exactly as it was (it is not
restored to the default `BOARD_WIDTH / 2`), while the grid, lock,
outcome, over-flag and status message are reinitialized. -/
theorem c10_reset_keeps_selection (b : Board) (r : Int) :
    (reset b r).selected_column = b.selected_column ∧
      (reset b r).cols = make_cols ∧ (reset b r).lock = false ∧
      (reset b r).winner = none ∧ (reset b r).game_over = false ∧
      (reset b r).status_message = none := by
  simp [reset]

theorem c10_witness :
    (reset { finished_red_board with selected_column := 0 } 2).selected_column = 0 :=
  (c10_reset_keeps_selection { finished_red_board with selected_column := 0 } 2).1

end ConnectFour
